import Mathlib

/-!
Verification of the PDF RAG Q&A system (AI-Powered pdfQ-A).

The repository splits into a React frontend (present in the snapshot:
`Frontend/src/utils/api.js`, `Frontend/src/hooks/useChat.js`, the component
files, and the root `App` component) and a FastAPI backend
(`Backend/main.py`, `Backend/simple_rag.py`, `Backend/database.py`) whose
Python sources are not in the snapshot — only `Backend/requirements.txt`
and the README survive.  Frontend behaviour is embedded directly from the
JavaScript source; backend behaviour (ingestion pipeline, vector index,
retrieval answerer, document registry) is modelled from the spec, as marked
on each definition.
-/

set_option maxHeartbeats 1000000
set_option maxRecDepth 8000

namespace PdfQA

/- ========================================================================
   VectorIndex model (spec §3, §4.4).
   ======================================================================== -/

/-- Modelled from the spec: a vector record (§3) stored in the external
vector database — an embedding plus metadata {document filename, chunk
index, text snippet}.  The backend adapter (`simple_rag.py`) is missing
from the snapshot. -/
structure VecRecord where
  document : String
  chunkIndex : Nat
  embedding : List ℚ
  snippet : String
deriving DecidableEq, Repr

/-- Dot product of two rational vectors (pointwise, truncating at the
shorter length). -/
def dotProd : List ℚ → List ℚ → ℚ
  | [], _ => 0
  | _, [] => 0
  | x :: xs, y :: ys => x * y + dotProd xs ys

/-- Squared Euclidean norm of a vector. -/
def normSq (v : List ℚ) : ℚ := dotProd v v

/-- Signed-square similarity proxy: `sign(dot v q) * (dot v q)^2 / normSq v`.
For a fixed query `q`, ordering candidate vectors by this rational agrees
with ordering them by real cosine similarity to `q` (proved below), while
remaining computable. -/
def simProxy (q v : List ℚ) : ℚ :=
  if 0 ≤ dotProd v q then dotProd v q ^ 2 / normSq v
  else -(dotProd v q ^ 2 / normSq v)

/-- Cosine similarity of `v` against query `q`, over the reals. -/
noncomputable def cosSim (q v : List ℚ) : ℝ :=
  (dotProd v q : ℝ) / (Real.sqrt ((normSq v : ℚ) : ℝ) * Real.sqrt ((normSq q : ℚ) : ℝ))

/-- Modelled from the spec (§4.4): the retrieval order — descending
similarity, ties broken by ascending chunk index for determinism. -/
def recBefore (q : List ℚ) (a b : VecRecord) : Prop :=
  simProxy q b.embedding < simProxy q a.embedding ∨
    (simProxy q a.embedding = simProxy q b.embedding ∧ a.chunkIndex ≤ b.chunkIndex)

instance recBefore.decRel (q : List ℚ) : DecidableRel (recBefore q) := fun a b => by
  unfold recBefore
  infer_instance

instance recBefore.total (q : List ℚ) : IsTotal VecRecord (recBefore q) := by
  constructor
  intro a b
  rcases lt_trichotomy (simProxy q a.embedding) (simProxy q b.embedding) with h | h | h
  · exact Or.inr (Or.inl h)
  · rcases Nat.le_total a.chunkIndex b.chunkIndex with hn | hn
    · exact Or.inl (Or.inr ⟨h, hn⟩)
    · exact Or.inr (Or.inr ⟨h.symm, hn⟩)
  · exact Or.inl (Or.inl h)

instance recBefore.trans (q : List ℚ) : IsTrans VecRecord (recBefore q) := by
  constructor
  rintro a b c (hab | ⟨hab, hab'⟩) (hbc | ⟨hbc, hbc'⟩)
  · exact Or.inl (hbc.trans hab)
  · exact Or.inl (hbc ▸ hab)
  · exact Or.inl (hab ▸ hbc)
  · exact Or.inr ⟨hab.trans hbc, hab'.trans hbc'⟩

/-- Restriction of the stored records to an optional filename filter
(metadata filter on the `document` field, spec §4.4). -/
def filterDoc (index : List VecRecord) : Option String → List VecRecord
  | some f => index.filter (fun r : VecRecord => r.document == f)
  | none => index

/-- Modelled from the spec (§4.4): `query(vector, top_k, filter)` returns up
to `top_k` records, optionally restricted to one document, ordered by
descending similarity with ties broken by ascending chunk index.  The
concrete backend (`simple_rag.py` plus the Pinecone client) is missing from
the snapshot. -/
def query (index : List VecRecord) (vector : List ℚ) (topK : Nat)
    (flt : Option String) : List VecRecord :=
  ((filterDoc index flt).insertionSort (recBefore vector)).take topK

/-- Signed square, a strictly monotone function on the reals. -/
noncomputable def sgnSq (x : ℝ) : ℝ := if 0 ≤ x then x ^ 2 else -(x ^ 2)

/- ========================================================================
   Chunker model (spec §4.2).
   ======================================================================== -/

/-- Characters treated as sentence/paragraph break markers by the
boundary-snapping step. -/
def isBreakChar (c : Char) : Bool := c = '.' || c = '\n'

/-- `breakAt cs p` holds when the character boundary `p` (counting in
characters from the start of the text) directly follows a break marker. -/
def breakAt (cs : List Char) : Nat → Bool
  | 0 => false
  | q + 1 =>
    match cs.drop q with
    | [] => false
    | c :: _ => isBreakChar c

/-- Snap a tentative chunk end `pos` to the last sentence/paragraph break
inside the tolerance window `[pos - tol, min (pos + tol) cs.length]`, or
keep `pos` when the window holds no break. -/
def snapEnd (cs : List Char) (pos tol : Nat) : Nat :=
  (((List.range' (pos - tol) (min (pos + tol) cs.length + 1 - (pos - tol))).filter
    (fun p => breakAt cs p)).getLast?).getD pos

/-- A chunk (§3): owning span (start offset, end offset) into the document
text together with the raw text of the span. -/
structure ChunkSpan where
  start : Nat
  stop : Nat
  text : String
deriving DecidableEq, Repr

/-- End position of the chunk that starts at `start`: the snapped position
when a full-size chunk ends strictly inside the text, else the text end. -/
def chunkEnd (cs : List Char) (size tol start : Nat) : Nat :=
  if start + size < cs.length then snapEnd cs (start + size) tol else cs.length

/-- One step of the chunking loop: emit the chunk starting at `start`,
snap its end to a nearby break, then continue `overlap` characters before
that end.  `fuel` bounds the recursion. -/
def chunkFrom (cs : List Char) (size overlap tol : Nat) : Nat → Nat → List ChunkSpan
  | 0, _ => []
  | fuel + 1, start =>
    if start < cs.length then
      { start := start, stop := chunkEnd cs size tol start,
        text := String.mk ((cs.drop start).take (chunkEnd cs size tol start - start)) } ::
        (if chunkEnd cs size tol start < cs.length then
          chunkFrom cs size overlap tol fuel (chunkEnd cs size tol start - overlap)
        else [])
    else []

/-- Modelled from the spec (§4.2): the chunker splits text into an ordered,
finite sequence of overlapping chunks whose boundaries prefer
sentence/paragraph breaks within a tolerance window; each successive chunk
restarts `overlap` characters before the previous chunk's end.  The backend
chunker (`simple_rag.py`) is missing from the snapshot. -/
def chunkText (s : String) (size overlap tol : Nat) : List ChunkSpan :=
  chunkFrom s.data size overlap tol (s.data.length + 1) 0

/- ========================================================================
   IngestionPipeline model (spec §4.5, §4.6, §7).
   ======================================================================== -/

/-- Pipeline stages that can fail (spec §4.6, §7). -/
inductive Stage
  | extraction
  | chunking
  | embedding
  | upsert
deriving DecidableEq, Repr

/-- Document processing states (spec §4.5): the `error` state carries the
failing stage and a message. -/
inductive DocStatus
  | uploaded
  | extracting
  | chunking
  | embedding
  | vectorized
  | error (stage : Stage) (msg : String)
deriving DecidableEq, Repr

/-- Fault injection for an ingestion run: the outcome of the external
extraction call, an optional chunking-stage failure, and optional failures
of the embedding backend / vector upsert when processing a given chunk
position. -/
structure Faults where
  extractResult : Except String String
  chunkFail : Option String
  embedFailAt : Option Nat
  upsertFailAt : Option Nat

/-- Idempotent upsert (spec §4.4): re-upserting the same
`(document, chunk_index)` key overwrites rather than duplicates. -/
def upsertRec (index : List VecRecord) (rec : VecRecord) : List VecRecord :=
  index.filter (fun r => !(r.document == rec.document && r.chunkIndex == rec.chunkIndex)) ++ [rec]

/-- `delete(document_id)` (spec §4.4): removes all vectors of a document. -/
def deleteDoc (index : List VecRecord) (filename : String) : List VecRecord :=
  index.filter (fun r => r.document != filename)

/-- A stage failure as seen at the pipeline boundary: the failing stage, its
message, and the vector index as it stood when the stage failed (so that
compensation can act on the partially-written state). -/
structure StageFailure where
  stage : Stage
  msg : String
  partialIndex : List VecRecord

/-- Per-chunk embed-then-upsert loop.  Chunk `i` first goes to the embedder
(fails with an `EmbeddingError` when `embedFailAt = some i`), then its
vector is upserted (fails with `IndexUnavailable` when
`upsertFailAt = some i`); a failure aborts the loop with the index written
so far. -/
def embedLoop (emb : String → List ℚ) (faults : Faults) (filename : String) :
    List (Nat × ChunkSpan) → List VecRecord → Except StageFailure (List VecRecord)
  | [], index => .ok index
  | (i, c) :: rest, index =>
    if faults.embedFailAt = some i then .error ⟨.embedding, "EmbeddingError", index⟩
    else if faults.upsertFailAt = some i then .error ⟨.upsert, "IndexUnavailable", index⟩
    else embedLoop emb faults filename rest (upsertRec index ⟨filename, i, emb c.text, c.text⟩)

/-- The extract → chunk → embed → upsert sequence, before the boundary
catch: a stage error propagates as an `Except.error`. -/
def runStages (emb : String → List ℚ) (size overlap tol : Nat) (faults : Faults)
    (filename : String) (index0 : List VecRecord) :
    Except StageFailure (List VecRecord × Nat) :=
  match faults.extractResult with
  | .error m => .error ⟨.extraction, m, index0⟩
  | .ok text =>
    match faults.chunkFail with
    | some m => .error ⟨.chunking, m, index0⟩
    | none =>
      match embedLoop emb faults filename (chunkText text size overlap tol).enum index0 with
      | .error f => .error f
      | .ok idx => .ok (idx, (chunkText text size overlap tol).length)

/-- The value returned by the inbound ingest call (spec §6):
`{status, vector_count}` on success, `{error}` on a stage failure. -/
inductive IngestResult
  | ok (status : DocStatus) (vectorCount : Nat)
  | failed (stage : Stage) (msg : String)
deriving DecidableEq, Repr

/-- The externally observable state the pipeline mutates: the vector index
and the document's status row. -/
structure PipeState where
  index : List VecRecord
  status : DocStatus

/-- Modelled from the spec (§4.5, §4.6, §7): `ingest(filename, raw_bytes)`
first deletes the document's old vectors (re-upload semantics), then drives
the stages; on success it marks `vectorized` and reports the vector count;
on any stage failure it deletes the document's partially-written vectors
(compensating action) and marks `error` with the failing stage.  Stage
errors are converted into the returned `IngestResult`, never thrown past
this boundary.  The backend pipeline (`simple_rag.py`, `database.py`) is
missing from the snapshot. -/
def ingest (emb : String → List ℚ) (size overlap tol : Nat) (faults : Faults)
    (filename : String) (st : PipeState) : PipeState × IngestResult :=
  match runStages emb size overlap tol faults filename (deleteDoc st.index filename) with
  | .error f =>
    (⟨deleteDoc f.partialIndex filename, .error f.stage f.msg⟩, .failed f.stage f.msg)
  | .ok (idx, n) => (⟨idx, .vectorized⟩, .ok .vectorized n)

/- ========================================================================
   RetrievalAnswerer model (spec §4.7).
   ======================================================================== -/

/-- A source citation inside an `Answer` (spec §3). -/
structure SourceRef where
  document : String
  chunkIndex : Nat
  snippet : String
deriving DecidableEq, Repr

/-- The value returned by the inbound answer call (spec §3, §6). -/
structure Answer where
  text : String
  sources : List SourceRef
deriving DecidableEq, Repr

/-- The well-defined "no relevant content" answer of spec §4.7 step 3. -/
def noRelevantContentAnswer : Answer :=
  ⟨"No relevant content found in the selected document.", []⟩

/-- Truncate retrieved records to the LLM context budget, dropping
lowest-ranked chunks first (spec §4.7 step 4): keep the longest prefix
whose snippets fit the character budget. -/
def fitBudget (budget : Nat) : List VecRecord → List VecRecord
  | [] => []
  | r :: rest =>
    if r.snippet.length ≤ budget then r :: fitBudget (budget - r.snippet.length) rest
    else []

/-- The source metadata recorded for a chunk included in the context. -/
def mkSourceRef (r : VecRecord) : SourceRef := ⟨r.document, r.chunkIndex, r.snippet⟩

/-- Modelled from the spec (§4.7): `answer(question, filename?)` embeds the
question, queries the index with a fixed `top_k` and the optional filename
filter, returns the defined "no relevant content" answer on zero results
(without calling the LLM), and otherwise calls the external LLM on the
budget-truncated context and cites exactly the included chunks.  The second
component records whether the external LLM was invoked.  The backend
answerer (`simple_rag.py`) is missing from the snapshot. -/
def answerQA (emb : String → List ℚ) (llm : String → String → String)
    (budget topK : Nat) (index : List VecRecord) (question : String)
    (flt : Option String) : Answer × Bool :=
  match query index (emb question) topK flt with
  | [] => (noRelevantContentAnswer, false)
  | r :: rest =>
    (⟨llm (String.intercalate "\n\n" ((fitBudget budget (r :: rest)).map VecRecord.snippet))
        question,
      (fitBudget budget (r :: rest)).map mkSourceRef⟩, true)

/- ========================================================================
   Frontend embedding: api.js and the App component.
   ======================================================================== -/

/-- The backend endpoints reached by the methods of `APIService`
(`Frontend/src/utils/api.js`): `uploadFile` posts to the upload endpoint,
`vectorizeDocument` posts to the vectorize endpoint, `askQuestion` posts to
the ask endpoint, and `getFiles` fetches the files endpoint;
`uploadAndVectorize` composes `uploadFile` and `vectorizeDocument`. -/
inductive Endpoint
  | uploadPdf
  | vectorize
  | ask
  | files
deriving DecidableEq, Repr

/-- Endpoints for which `APIService` has a method (api.js lines 43-157). -/
def apiServiceEndpoints : List Endpoint :=
  [.uploadPdf, .vectorize, .ask, .files]

/-- Backend calls issued from the UI layer (the `App` component):
`handleFileUpload` calls `uploadAndVectorize` (upload then vectorize),
`handleSendMessage` calls `askQuestion`, and `fetchAvailableFiles` (run on
mount, on search, and after each upload) calls `getFiles`. -/
def uiIssuedEndpoints : List Endpoint :=
  [.uploadPdf, .vectorize, .ask, .files]

/-- The two core inbound calls of spec §6: ingest (upload + vectorize) and
answer (ask). -/
def coreInboundEndpoints : List Endpoint :=
  [.uploadPdf, .vectorize, .ask]

/-- Result object of `uploadAndVectorize` (api.js lines 134-157): either
`{success: true, upload, vectorization, filename}` or
`{success: false, error, filename}`. -/
structure UploadVecResult where
  success : Bool
  upload : Option String
  vectorization : Option String
  errMsg : Option String
  filename : String
deriving DecidableEq, Repr

/-- Embedding of `APIService.uploadAndVectorize` (api.js lines 134-157):
upload the file, then vectorize it; any error thrown by either step is
caught and returned as `{success: false, error, filename}` — the method
itself never throws. -/
def uploadAndVectorize (uploadOutcome vectorizeOutcome : Except String String)
    (filename : String) : UploadVecResult :=
  match uploadOutcome with
  | .error m => ⟨false, none, none, some m, filename⟩
  | .ok up =>
    match vectorizeOutcome with
    | .error m => ⟨false, none, none, some m, filename⟩
    | .ok vec => ⟨true, some up, some vec, none, filename⟩

/-- A browser `File` object as used by `validateFile`: its MIME type
(`file.type`), byte size (`file.size`) and name. -/
structure FileObj where
  mimeType : String
  size : Nat
  name : String
deriving DecidableEq, Repr

/-- Embedding of JavaScript `String.prototype.includes`. -/
def strIncludes (s sub : String) : Bool := decide (sub.data <:+: s.data)

/-- Embedding of `validateFile` (api.js lines 184-194): throws unless the
MIME type contains "pdf" and the size is at most 10MB; returns `true`
otherwise. -/
def validateFile (f : FileObj) : Except String Bool :=
  if !(strIncludes f.mimeType "pdf") then .error "Please upload a PDF file only."
  else if f.size > 10 * 1024 * 1024 then .error "File size must be less than 10MB."
  else .ok true

/-- The slice of UI state that `handleFileUpload` can touch: the current
chat's messages and uploaded file, and the upload-in-progress flag. -/
structure UploadUIState where
  messages : List String
  uploadedFile : Option String
  isUploading : Bool
deriving DecidableEq, Repr

/-- Embedding of `handleFileUpload` (App component, lines 189-233): when
`validateFile` throws, it alerts and returns before any backend call or
state change; otherwise it runs `uploadAndVectorize` and on success appends
the acknowledgment message and records the uploaded file.  The second
component records whether a backend call was issued. -/
def handleFileUpload (f : FileObj) (uploadOutcome vectorizeOutcome : Except String String)
    (st : UploadUIState) : UploadUIState × Bool :=
  match validateFile f with
  | .error _ => (st, false)
  | .ok _ =>
    if (uploadAndVectorize uploadOutcome vectorizeOutcome f.name).success then
      ({ messages := st.messages ++
          ["✅ PDF \"" ++ f.name ++ "\" uploaded and processed successfully! " ++
            "You can now ask questions about its content."],
         uploadedFile := some f.name,
         isUploading := false }, true)
    else ({ st with isUploading := false }, true)

/-- The JSON body of an ask response as read by the frontend: an optional
`answer` field plus `sources`. -/
structure QAResponse where
  answer : Option String
  sources : List SourceRef
deriving Repr

/-- What `handleSendMessage` appends for a completed ask request. -/
inductive MsgOutcome
  | aiAnswer (content : String) (sources : List SourceRef)
  | errorMsg (content : String)
deriving Repr

/-- Embedding of the response handling in `handleSendMessage` (App
component, lines 313-339): a response with an `answer` field becomes an AI
message carrying the answer and its sources; a response lacking the
`answer` field is treated as a failure (`throw` into the catch block, which
appends an error message). -/
def processAskResponse (resp : QAResponse) : MsgOutcome :=
  match resp.answer with
  | some a => .aiAnswer a resp.sources
  | none => .errorMsg
      "❌ Sorry, I encountered an error: No answer received from the server. Please try again."

/-- The slice of UI state that the `handleSendMessage` guard reads and
writes: the input box, the loading flag, and the current chat's messages. -/
structure ChatUIState where
  inputMessage : String
  isLoading : Bool
  messages : List String
deriving Repr

/-- Embedding of `handleSendMessage` (App component, lines 252-361): the
guard `if (!inputMessage.trim() || isLoading) return;` makes the call a
no-op when a request is in flight or the trimmed input is empty; otherwise
the user message is appended, the input cleared, and — when a file is
selected — the ask request issued.  The second component records whether a
backend ask request was issued. -/
def handleSendMessage (uploadedFile : Option String) (reply : MsgOutcome)
    (st : ChatUIState) : ChatUIState × Bool :=
  if st.inputMessage.trim = "" ∨ st.isLoading then (st, false)
  else
    match uploadedFile with
    | none =>
      ({ inputMessage := "", isLoading := false,
         messages := st.messages ++ [st.inputMessage.trim,
           "Please select a PDF document from your uploaded files to ask questions about:"] },
       false)
    | some _ =>
      ({ inputMessage := "", isLoading := false,
         messages := st.messages ++ [st.inputMessage.trim,
           match reply with
           | .aiAnswer a _ => a
           | .errorMsg e => e] },
       true)

/-- Embedding of the send-button guard in `ChatInput`
(`disabled={!inputMessage.trim() || isLoading}`). -/
def chatInputSendDisabled (st : ChatUIState) : Bool :=
  st.inputMessage.trim == "" || st.isLoading

/-- Embedding of the send-button guard in `WelcomeScreen`
(`disabled={!inputMessage.trim() || isLoading}`). -/
def welcomeSendDisabled (st : ChatUIState) : Bool :=
  st.inputMessage.trim == "" || st.isLoading

/- ========================================================================
   Single-flight model (spec §4.5, §5): two concurrent ingestion tasks for
   the same filename, interleaved by an arbitrary schedule.
   ======================================================================== -/

/-- Document status as read by the single-flight guard.  Modelled from the
spec (§4.5): the guard rejects while the status is `extracting`,
`chunking` or `embedding`; terminal statuses allow a fresh attempt. -/
inductive SfStatus
  | uploaded
  | extracting
  | chunking
  | embedding
  | vectorized
deriving DecidableEq, Repr, Fintype

/-- Program counter of one ingestion task: the compare-and-set start step,
three in-flight stage steps, and done. -/
inductive SfPc
  | start
  | working1
  | working2
  | finishing
  | done
deriving DecidableEq, Repr, Fintype

/-- Outcome of one ingestion task: still pending, completed, or rejected
with `ConcurrentIngestionError`. -/
inductive SfRes
  | pending
  | completed
  | rejected
deriving DecidableEq, Repr, Fintype

/-- Whether the single-flight guard treats a status as in-flight
(spec §4.5). -/
def sfInflight : SfStatus → Bool
  | .extracting => true
  | .chunking => true
  | .embedding => true
  | _ => false

/-- Joint state of the shared document row and the two tasks. -/
structure SfState where
  status : SfStatus
  pcA : SfPc
  resA : SfRes
  pcB : SfPc
  resB : SfRes
deriving DecidableEq, Repr, Fintype

/-- One step of a single task against the shared status row.  The start
step is the guarded compare-and-set of spec §4.5: if the row is in-flight
the request is rejected with `ConcurrentIngestionError` (never queued);
otherwise the task claims the row by setting `extracting`. -/
def sfStepTask (s : SfStatus) (pc : SfPc) (res : SfRes) : SfStatus × SfPc × SfRes :=
  match pc with
  | .start => if sfInflight s then (s, .done, .rejected) else (.extracting, .working1, res)
  | .working1 => (.chunking, .working2, res)
  | .working2 => (.embedding, .finishing, res)
  | .finishing => (.vectorized, .done, .completed)
  | .done => (s, .done, res)

/-- Scheduler step: `true` steps task A, `false` steps task B. -/
def sfStep (st : SfState) (choice : Bool) : SfState :=
  if choice then
    match sfStepTask st.status st.pcA st.resA with
    | (s, pc, r) => { st with status := s, pcA := pc, resA := r }
  else
    match sfStepTask st.status st.pcB st.resB with
    | (s, pc, r) => { st with status := s, pcB := pc, resB := r }

/-- Run an arbitrary interleaving. -/
def sfRun (sched : List Bool) (st : SfState) : SfState := sched.foldl sfStep st

/-- Run a task to completion (four steps always reach `done`). -/
def sfFlush (st : SfState) : SfState :=
  sfStep (sfStep (sfStep (sfStep (sfStep (sfStep (sfStep (sfStep st
    true) true) true) true) false) false) false) false

/-- Both tasks start pending against a fresh document row. -/
def sfInit : SfState := ⟨.uploaded, .start, .pending, .start, .pending⟩

/-- Final state of two concurrent ingestion attempts under schedule
`sched`, with both tasks run to completion afterwards. -/
def sfOutcome (sched : List Bool) : SfState := sfFlush (sfRun sched sfInit)

/-- A task is mid-flight: past its start step but not yet done. -/
def sfMid (pc : SfPc) : Bool := pc != .start && pc != .done

/-- The invariant of the two-task system: results are set exactly at
`done`, the row is in-flight exactly when exactly one task is mid-flight,
never both, and a rejected task implies the other is mid-flight or has
completed. -/
def sfInv (st : SfState) : Bool :=
  ((st.resA == .pending) == (st.pcA != .done)) &&
  ((st.resB == .pending) == (st.pcB != .done)) &&
  (sfInflight st.status == (sfMid st.pcA || sfMid st.pcB)) &&
  !(sfMid st.pcA && sfMid st.pcB) &&
  (!(st.resA == .rejected) || (sfMid st.pcB || st.resB == .completed)) &&
  (!(st.resB == .rejected) || (sfMid st.pcA || st.resA == .completed))

theorem sgnSq_le_sgnSq_iff (x y : ℝ) : sgnSq x ≤ sgnSq y ↔ x ≤ y := by
  unfold sgnSq
  split_ifs with h1 h2 h2 <;> constructor <;> intro h <;> nlinarith

theorem simProxy_cast (q v : List ℚ) (hv : 0 < normSq v) (hq : 0 < normSq q) :
    ((simProxy q v : ℚ) : ℝ) = sgnSq (cosSim q v) * ((normSq q : ℚ) : ℝ) := by
  have hvR : (0 : ℝ) < ((normSq v : ℚ) : ℝ) := by exact_mod_cast hv
  have hqR : (0 : ℝ) < ((normSq q : ℚ) : ℝ) := by exact_mod_cast hq
  have hsv : (0 : ℝ) < Real.sqrt ((normSq v : ℚ) : ℝ) := Real.sqrt_pos.mpr hvR
  have hsq : (0 : ℝ) < Real.sqrt ((normSq q : ℚ) : ℝ) := Real.sqrt_pos.mpr hqR
  have hden : (0 : ℝ) < Real.sqrt ((normSq v : ℚ) : ℝ) * Real.sqrt ((normSq q : ℚ) : ℝ) :=
    mul_pos hsv hsq
  have hsq2 : (Real.sqrt ((normSq v : ℚ) : ℝ) * Real.sqrt ((normSq q : ℚ) : ℝ)) ^ 2
      = ((normSq v : ℚ) : ℝ) * ((normSq q : ℚ) : ℝ) := by
    rw [mul_pow, Real.sq_sqrt hvR.le, Real.sq_sqrt hqR.le]
  have hcos2 : cosSim q v ^ 2
      = ((dotProd v q : ℚ) : ℝ) ^ 2 / (((normSq v : ℚ) : ℝ) * ((normSq q : ℚ) : ℝ)) := by
    unfold cosSim
    rw [div_pow, hsq2]
  unfold simProxy sgnSq
  by_cases hd : (0 : ℚ) ≤ dotProd v q
  · have hdR : (0 : ℝ) ≤ ((dotProd v q : ℚ) : ℝ) := by exact_mod_cast hd
    have hcosNN : 0 ≤ cosSim q v := by
      unfold cosSim
      exact div_nonneg hdR hden.le
    rw [if_pos hd, if_pos hcosNN, hcos2]
    push_cast
    field_simp
    ring
  · have hdR : ((dotProd v q : ℚ) : ℝ) < 0 := by
      exact_mod_cast lt_of_not_le hd
    have hcosNeg : cosSim q v < 0 := by
      unfold cosSim
      exact div_neg_of_neg_of_pos hdR hden
    rw [if_neg hd, if_neg (not_le.mpr hcosNeg), hcos2]
    field_simp
    ring

theorem cosSim_le_cosSim_iff (q v w : List ℚ) (hv : 0 < normSq v) (hw : 0 < normSq w)
    (hq : 0 < normSq q) : cosSim q v ≤ cosSim q w ↔ simProxy q v ≤ simProxy q w := by
  have hqR : (0 : ℝ) < ((normSq q : ℚ) : ℝ) := by exact_mod_cast hq
  constructor
  · intro h
    have h2 : sgnSq (cosSim q v) * ((normSq q : ℚ) : ℝ)
        ≤ sgnSq (cosSim q w) * ((normSq q : ℚ) : ℝ) :=
      mul_le_mul_of_nonneg_right ((sgnSq_le_sgnSq_iff _ _).mpr h) hqR.le
    rw [← simProxy_cast q v hv hq, ← simProxy_cast q w hw hq] at h2
    exact_mod_cast h2
  · intro h
    have h2 : ((simProxy q v : ℚ) : ℝ) ≤ ((simProxy q w : ℚ) : ℝ) := by exact_mod_cast h
    rw [simProxy_cast q v hv hq, simProxy_cast q w hw hq] at h2
    exact (sgnSq_le_sgnSq_iff _ _).mp
      (le_of_mul_le_mul_right h2 hqR)

theorem cosSim_eq_cosSim_iff (q v w : List ℚ) (hv : 0 < normSq v) (hw : 0 < normSq w)
    (hq : 0 < normSq q) : cosSim q v = cosSim q w ↔ simProxy q v = simProxy q w := by
  constructor
  · intro h
    exact le_antisymm
      ((cosSim_le_cosSim_iff q v w hv hw hq).mp h.le)
      ((cosSim_le_cosSim_iff q w v hw hv hq).mp h.ge)
  · intro h
    exact le_antisymm
      ((cosSim_le_cosSim_iff q v w hv hw hq).mpr h.le)
      ((cosSim_le_cosSim_iff q w v hw hv hq).mpr h.ge)

theorem mem_filterDoc {index : List VecRecord} {flt : Option String} {r : VecRecord}
    (h : r ∈ filterDoc index flt) : r ∈ index := by
  cases flt with
  | none => exact h
  | some f => exact List.mem_of_mem_filter h

theorem mem_filterDoc_some {index : List VecRecord} {f : String} {r : VecRecord}
    (h : r ∈ filterDoc index (some f)) : r.document = f := by
  have := List.of_mem_filter h
  simpa using this

theorem mem_query {index : List VecRecord} {vector : List ℚ} {topK : Nat}
    {flt : Option String} {r : VecRecord} (h : r ∈ query index vector topK flt) :
    r ∈ filterDoc index flt := by
  unfold query at h
  exact (List.perm_insertionSort (recBefore vector) (filterDoc index flt)).subset
    (List.take_subset _ _ h)

/-- Claim C2: for every query vector, `top_k`, stored records and optional
filename filter, `query` returns at most `top_k` records; with a filename
filter every returned record's `document` field equals that filename; the
returned records are pairwise ordered by descending cosine similarity to
the query vector; and any two returned records of equal cosine similarity
appear in ascending chunk-index order.  (Hypotheses: the query vector and
all stored embeddings are nonzero, so cosine similarity is defined.) -/
theorem claim_C2_query_topk_filter_order (index : List VecRecord) (vector : List ℚ)
    (topK : Nat) (flt : Option String)
    (hq : 0 < normSq vector)
    (hrec : ∀ r ∈ index, 0 < normSq r.embedding) :
    (query index vector topK flt).length ≤ topK ∧
    (∀ f, flt = some f → ∀ r ∈ query index vector topK flt, r.document = f) ∧
    (query index vector topK flt).Pairwise (fun a b =>
      cosSim vector b.embedding ≤ cosSim vector a.embedding ∧
      (cosSim vector a.embedding = cosSim vector b.embedding →
        a.chunkIndex ≤ b.chunkIndex)) := by
  refine ⟨List.length_take_le _ _, ?_, ?_⟩
  · rintro f rfl r hr
    exact mem_filterDoc_some (mem_query hr)
  · have hsorted : (List.insertionSort (recBefore vector) (filterDoc index flt)).Pairwise
        (recBefore vector) :=
      List.sorted_insertionSort (recBefore vector) (filterDoc index flt)
    have htake : (query index vector topK flt).Pairwise (recBefore vector) :=
      hsorted.sublist (List.take_sublist _ _)
    refine htake.imp_of_mem ?_
    intro a b ha hb hab
    have hva : 0 < normSq a.embedding := hrec a (mem_filterDoc (mem_query ha))
    have hvb : 0 < normSq b.embedding := hrec b (mem_filterDoc (mem_query hb))
    rcases hab with hlt | ⟨heq, hidx⟩
    · refine ⟨(cosSim_le_cosSim_iff vector b.embedding a.embedding hvb hva hq).mpr hlt.le, ?_⟩
      intro hcos
      exact absurd ((cosSim_eq_cosSim_iff vector a.embedding b.embedding hva hvb hq).mp hcos)
        (ne_of_gt hlt)
    · exact ⟨(cosSim_le_cosSim_iff vector b.embedding a.embedding hvb hva hq).mpr heq.ge,
        fun _ => hidx⟩

theorem snapEnd_ge (cs : List Char) (pos tol : Nat) : pos - tol ≤ snapEnd cs pos tol := by
  unfold snapEnd
  cases h : ((List.range' (pos - tol) (min (pos + tol) cs.length + 1 - (pos - tol))).filter
      (fun p => breakAt cs p)).getLast? with
  | none =>
    simp
  | some a =>
    have ha := List.mem_of_mem_getLast? h
    have h1 := (List.mem_filter.mp ha).1
    have hb := List.mem_range'_1.mp h1
    simpa using hb.1

theorem chunkFrom_cons_start {cs : List Char} {size overlap tol fuel start : Nat}
    {c : ChunkSpan} {rest : List ChunkSpan}
    (h : chunkFrom cs size overlap tol fuel start = c :: rest) : c.start = start := by
  cases fuel with
  | zero => simp [chunkFrom] at h
  | succ n =>
    unfold chunkFrom at h
    by_cases hs : start < cs.length
    · rw [if_pos hs] at h
      injection h with h1 _
      rw [← h1]
    · rw [if_neg hs] at h
      simp at h

theorem chunkEnd_overlap_le {cs : List Char} {size overlap tol start : Nat}
    (hconf : overlap + tol < size) (he : chunkEnd cs size tol start < cs.length) :
    overlap ≤ chunkEnd cs size tol start := by
  unfold chunkEnd at he ⊢
  by_cases hr : start + size < cs.length
  · rw [if_pos hr]
    have := snapEnd_ge cs (start + size) tol
    omega
  · rw [if_neg hr] at he
    omega

theorem chunkFrom_chain (cs : List Char) (size overlap tol : Nat)
    (hconf : overlap + tol < size) :
    ∀ fuel start, List.Chain' (fun c c' => c'.start + overlap = c.stop)
      (chunkFrom cs size overlap tol fuel start) := by
  intro fuel
  induction fuel with
  | zero =>
    intro start
    simp [chunkFrom]
  | succ n ih =>
    intro start
    unfold chunkFrom
    by_cases hs : start < cs.length
    · rw [if_pos hs]
      by_cases he : chunkEnd cs size tol start < cs.length
      · rw [if_pos he]
        refine List.chain'_cons'.mpr ⟨?_, ih _⟩
        intro b hb
        cases hhead : chunkFrom cs size overlap tol n (chunkEnd cs size tol start - overlap) with
        | nil =>
          rw [hhead] at hb
          simp at hb
        | cons c rest =>
          rw [hhead] at hb
          simp at hb
          subst hb
          have hcstart := chunkFrom_cons_start hhead
          have hge := chunkEnd_overlap_le hconf he
          simp only [hcstart]
          omega
      · rw [if_neg he]
        simp
    · rw [if_neg hs]
      simp

/-- Claim C8: the chunker is a deterministic function of
`(text, size, overlap)` (plus the snapping tolerance) — equal inputs give
identical chunk boundaries; empty input yields the empty chunk sequence
rather than an error; and, whenever the configuration is sensible
(`overlap + tol < size`), each chunk after the first starts exactly
`overlap` characters before the previous chunk's (snapped) end, so
consecutive chunks overlap by exactly the configured amount. -/
theorem claim_C8_chunker_deterministic_overlap (t₁ t₂ : String) (size overlap tol : Nat)
    (hconf : overlap + tol < size) :
    (t₁ = t₂ → chunkText t₁ size overlap tol = chunkText t₂ size overlap tol) ∧
    chunkText "" size overlap tol = [] ∧
    List.Chain' (fun c c' => c'.start + overlap = c.stop)
      (chunkText t₁ size overlap tol) := by
  refine ⟨fun h => by rw [h], rfl, ?_⟩
  exact chunkFrom_chain t₁.data size overlap tol hconf _ 0

/-- Witness for claim C8 at a concrete text and configuration. -/
theorem claim_C8_witness :
    1 + 1 < 4 ∧
    (("ab. cdefg" : String) = "ab. cdefg" →
      chunkText "ab. cdefg" 4 1 1 = chunkText "ab. cdefg" 4 1 1) ∧
    chunkText "" 4 1 1 = [] ∧
    List.Chain' (fun c c' => c'.start + 1 = c.stop) (chunkText "ab. cdefg" 4 1 1) :=
  ⟨by decide, claim_C8_chunker_deterministic_overlap "ab. cdefg" "ab. cdefg" 4 1 1 (by decide)⟩

theorem filterDoc_deleteDoc (index : List VecRecord) (f : String) :
    filterDoc (deleteDoc index f) (some f) = [] := by
  unfold filterDoc deleteDoc
  rw [List.filter_eq_nil_iff]
  intro r hr
  have h := List.of_mem_filter hr
  simp at h ⊢
  exact h

theorem query_of_filterDoc_nil {index : List VecRecord} {f : String}
    (h : filterDoc index (some f) = []) (v : List ℚ) (k : Nat) :
    query index v k (some f) = [] := by
  unfold query
  rw [h]
  simp

/-- Claim C1: whenever any stage of an ingestion run fails — including a
failure after some chunks were already upserted — the pipeline deletes all
vectors already written for that document and sets the document's status to
`error` with the failing stage; the document is never left `vectorized`,
and no vector for it remains queryable (a filtered query returns nothing
for it). -/
theorem claim_C1_failure_compensation (emb : String → List ℚ) (size overlap tol : Nat)
    (faults : Faults) (filename : String) (st : PipeState) (stage : Stage) (msg : String)
    (h : (ingest emb size overlap tol faults filename st).2 = .failed stage msg) :
    (ingest emb size overlap tol faults filename st).1.status = .error stage msg ∧
    filterDoc (ingest emb size overlap tol faults filename st).1.index (some filename) = [] ∧
    (∀ v k, query (ingest emb size overlap tol faults filename st).1.index v k
      (some filename) = []) ∧
    (ingest emb size overlap tol faults filename st).1.status ≠ .vectorized := by
  unfold ingest at h ⊢
  cases hrun : runStages emb size overlap tol faults filename (deleteDoc st.index filename) with
  | error fobj =>
    rw [hrun] at h
    injection h with h1 h2
    subst h1
    subst h2
    refine ⟨rfl, filterDoc_deleteDoc _ _,
      fun v k => query_of_filterDoc_nil (filterDoc_deleteDoc _ _) v k, by simp⟩
  | ok p =>
    obtain ⟨idx, n⟩ := p
    rw [hrun] at h
    simp at h

/-- Witness for claim C1: with a three-chunk document, the embedder fails
on chunk 1 after chunk 0 was already upserted; the final state carries
`error embedding` and holds no queryable vector for the document. -/
theorem claim_C1_witness :
    (ingest (fun _ => [(1 : ℚ)]) 3 1 0 ⟨.ok "abcdef", none, some 1, none⟩ "doc.pdf"
        ⟨[], .uploaded⟩).2 = .failed .embedding "EmbeddingError" ∧
    ((ingest (fun _ => [(1 : ℚ)]) 3 1 0 ⟨.ok "abcdef", none, some 1, none⟩ "doc.pdf"
        ⟨[], .uploaded⟩).1.status = .error .embedding "EmbeddingError" ∧
     filterDoc (ingest (fun _ => [(1 : ℚ)]) 3 1 0 ⟨.ok "abcdef", none, some 1, none⟩ "doc.pdf"
        ⟨[], .uploaded⟩).1.index (some "doc.pdf") = [] ∧
     (∀ v k, query (ingest (fun _ => [(1 : ℚ)]) 3 1 0 ⟨.ok "abcdef", none, some 1, none⟩
        "doc.pdf" ⟨[], .uploaded⟩).1.index v k (some "doc.pdf") = []) ∧
     (ingest (fun _ => [(1 : ℚ)]) 3 1 0 ⟨.ok "abcdef", none, some 1, none⟩ "doc.pdf"
        ⟨[], .uploaded⟩).1.status ≠ .vectorized) := by
  have h : (ingest (fun _ => [(1 : ℚ)]) 3 1 0 ⟨.ok "abcdef", none, some 1, none⟩ "doc.pdf"
      ⟨[], .uploaded⟩).2 = .failed .embedding "EmbeddingError" := by rfl
  exact ⟨h, claim_C1_failure_compensation _ 3 1 0 _ "doc.pdf" _ _ _ h⟩

/-- Claim C4: the inbound ingest call always returns a result of shape
`{status, vector_count}` or `{error}`: every run yields either a success
value carrying `vectorized` and the vector count or a failure value
carrying the stage error; every stage error raised inside the pipeline is
converted into that returned value (never rethrown past the boundary); and
the frontend `uploadAndVectorize` likewise converts any thrown step error
into a `{success: false, error}` value. -/
theorem claim_C4_ingest_result_shape (emb : String → List ℚ) (size overlap tol : Nat)
    (faults : Faults) (filename : String) (st : PipeState)
    (uploadOutcome vectorizeOutcome : Except String String) (fname : String) :
    ((∃ n, (ingest emb size overlap tol faults filename st).2 = .ok .vectorized n) ∨
     (∃ stage msg, (ingest emb size overlap tol faults filename st).2 =
        .failed stage msg)) ∧
    (∀ f, runStages emb size overlap tol faults filename (deleteDoc st.index filename) =
        .error f →
      (ingest emb size overlap tol faults filename st).2 = .failed f.stage f.msg) ∧
    ((uploadAndVectorize uploadOutcome vectorizeOutcome fname).success = true ∧
       (uploadAndVectorize uploadOutcome vectorizeOutcome fname).errMsg = none ∨
     (uploadAndVectorize uploadOutcome vectorizeOutcome fname).success = false ∧
       ∃ m, (uploadAndVectorize uploadOutcome vectorizeOutcome fname).errMsg = some m) := by
  refine ⟨?_, ?_, ?_⟩
  · unfold ingest
    cases hrun : runStages emb size overlap tol faults filename
        (deleteDoc st.index filename) with
    | error f => exact Or.inr ⟨f.stage, f.msg, rfl⟩
    | ok p =>
      obtain ⟨idx, n⟩ := p
      exact Or.inl ⟨n, rfl⟩
  · intro f hrun
    unfold ingest
    rw [hrun]
  · unfold uploadAndVectorize
    cases uploadOutcome with
    | error m => exact Or.inr ⟨rfl, m, rfl⟩
    | ok up =>
      cases vectorizeOutcome with
      | error m => exact Or.inr ⟨rfl, m, rfl⟩
      | ok vec => exact Or.inl ⟨rfl, rfl⟩

theorem fitBudget_append_eq (budget : Nat) (l : List VecRecord) :
    ∃ rest, fitBudget budget l ++ rest = l := by
  induction l generalizing budget with
  | nil => exact ⟨[], rfl⟩
  | cons r t ih =>
    unfold fitBudget
    by_cases hle : r.snippet.length ≤ budget
    · rw [if_pos hle]
      obtain ⟨rest, hrest⟩ := ih (budget - r.snippet.length)
      exact ⟨rest, by rw [List.cons_append, hrest]⟩
    · rw [if_neg hle]
      exact ⟨r :: t, rfl⟩

/-- Claim C5: the returned `Answer` carries the answer text and a sources
list naming the filename and chunk metadata of exactly the chunks included
in the LLM context — the budget-truncated prefix of the retrieved
candidates, not all of them — and the context string sent to the LLM is
built from exactly those chunks; on the frontend, a response lacking the
`answer` field is treated as a failure. -/
theorem claim_C5_sources_match_context (emb : String → List ℚ)
    (llm : String → String → String) (budget topK : Nat) (index : List VecRecord)
    (question : String) (flt : Option String) (resp : QAResponse) :
    (answerQA emb llm budget topK index question flt).1.sources =
      (fitBudget budget (query index (emb question) topK flt)).map mkSourceRef ∧
    (∃ rest, fitBudget budget (query index (emb question) topK flt) ++ rest =
      query index (emb question) topK flt) ∧
    (query index (emb question) topK flt ≠ [] →
      (answerQA emb llm budget topK index question flt).1.text =
        llm (String.intercalate "\n\n"
          ((fitBudget budget (query index (emb question) topK flt)).map VecRecord.snippet))
          question) ∧
    (resp.answer = none → processAskResponse resp = .errorMsg
      "❌ Sorry, I encountered an error: No answer received from the server. Please try again.") := by
  refine ⟨?_, fitBudget_append_eq _ _, ?_, ?_⟩
  · unfold answerQA
    cases hq : query index (emb question) topK flt with
    | nil => simp [noRelevantContentAnswer, fitBudget]
    | cons r rest => rfl
  · intro hne
    unfold answerQA
    cases hq : query index (emb question) topK flt with
    | nil => exact absurd hq hne
    | cons r rest => rfl
  · intro hnone
    unfold processAskResponse
    rw [hnone]

/-- Claim C6: when the vector-index query returns zero results, the
answerer returns the defined "no relevant content" answer and the external
LLM is not invoked. -/
theorem claim_C6_no_grounding_no_llm (emb : String → List ℚ)
    (llm : String → String → String) (budget topK : Nat) (index : List VecRecord)
    (question : String) (flt : Option String)
    (h : query index (emb question) topK flt = []) :
    answerQA emb llm budget topK index question flt = (noRelevantContentAnswer, false) := by
  unfold answerQA
  rw [h]

/-- Witness for claim C6: an unrelated question against a document with no
matching vectors returns the "no relevant content" answer without an LLM
call. -/
theorem claim_C6_witness :
    query [] ((fun _ : String => [(1 : ℚ)]) "unrelated question") 5
      (some "doc_with_no_match") = [] ∧
    answerQA (fun _ : String => [(1 : ℚ)]) (fun _ _ => "llm output") 1000 5 []
      "unrelated question" (some "doc_with_no_match") = (noRelevantContentAnswer, false) := by
  have h : query [] ((fun _ : String => [(1 : ℚ)]) "unrelated question") 5
      (some "doc_with_no_match") = [] := rfl
  exact ⟨h, claim_C6_no_grounding_no_llm _ _ 1000 5 _ _ _ h⟩

theorem sfInv_step : ∀ (st : SfState) (c : Bool), sfInv st = true → sfInv (sfStep st c) = true := by
  rintro ⟨status, pcA, resA, pcB, resB⟩ c h
  revert h
  cases c <;> cases status <;> cases pcA <;> cases pcB <;> cases resA <;> cases resB <;> decide

theorem sfInv_run (sched : List Bool) (st : SfState) (h : sfInv st = true) :
    sfInv (sfRun sched st) = true := by
  induction sched generalizing st with
  | nil => exact h
  | cons c rest ih => exact ih _ (sfInv_step st c h)

theorem sfInv_flush : ∀ st : SfState, sfInv st = true → sfInv (sfFlush st) = true := by
  rintro ⟨status, pcA, resA, pcB, resB⟩ h
  revert h
  cases status <;> cases pcA <;> cases pcB <;> cases resA <;> cases resB <;> decide

theorem sfFlush_done : ∀ st : SfState, (sfFlush st).pcA = .done ∧ (sfFlush st).pcB = .done := by
  rintro ⟨status, pcA, resA, pcB, resB⟩
  cases status <;> cases pcA <;> cases pcB <;> cases resA <;> cases resB <;> decide

theorem sfFinal_disj : ∀ st : SfState, sfInv st = true → st.pcA = .done → st.pcB = .done →
    ((st.resA = .completed ∧ st.resB = .completed) ∨
     (st.resA = .completed ∧ st.resB = .rejected) ∨
     (st.resA = .rejected ∧ st.resB = .completed)) := by
  rintro ⟨status, pcA, resA, pcB, resB⟩ h
  revert h
  cases status <;> cases pcA <;> cases pcB <;> cases resA <;> cases resB <;> decide

/-- Claim C7: the single-flight guard rejects — immediately, with
`ConcurrentIngestionError`, never queueing — any ingestion request that
starts while the document row is `extracting`, `chunking` or `embedding`;
consequently, under every interleaving of two concurrent ingestion attempts
for the same filename, at most one attempt is rejected and every other
attempt runs to completion (never two rejections, never a stuck attempt),
and in an overlapping schedule (the second request starting while the
first is in flight) exactly one attempt is rejected and the other
completes. -/
theorem claim_C7_single_flight (sched : List Bool) :
    (∀ st : SfState, sfInflight st.status = true → st.pcA = .start →
      ((sfStep st true).resA = .rejected ∧ (sfStep st true).pcA = .done ∧
        (sfStep st true).status = st.status)) ∧
    (((sfOutcome sched).resA = .completed ∧ (sfOutcome sched).resB = .completed) ∨
     ((sfOutcome sched).resA = .completed ∧ (sfOutcome sched).resB = .rejected) ∨
     ((sfOutcome sched).resA = .rejected ∧ (sfOutcome sched).resB = .completed)) ∧
    ((sfOutcome [true, false]).resA = .completed ∧
      (sfOutcome [true, false]).resB = .rejected) := by
  refine ⟨?_, ?_, by decide⟩
  · rintro ⟨status, pcA, resA, pcB, resB⟩ h1 h2
    revert h1 h2
    cases status <;> cases pcA <;> cases pcB <;> cases resA <;> cases resB <;> decide
  have hinv : sfInv (sfRun sched sfInit) = true := sfInv_run sched sfInit (by decide)
  have hfl : sfInv (sfOutcome sched) = true := sfInv_flush _ hinv
  have hdone := sfFlush_done (sfRun sched sfInit)
  exact sfFinal_disj _ hfl hdone.1 hdone.2

/-- Claim C3 counterexample: the frontend issues the file-listing backend
call (`fetchAvailableFiles` → `apiService.getFiles`, hitting the files
endpoint), which is not part of the two core inbound calls (ingest =
upload + vectorize, answer = ask) — so ingest and answer are not the only
backend calls the UI layer performs. -/
theorem claim_C3_counterexample :
    Endpoint.files ∈ uiIssuedEndpoints ∧ Endpoint.files ∉ coreInboundEndpoints := by
  decide

/-- Claim C3 (amended): the UI layer invokes exactly the four `APIService`
endpoints — upload and vectorize (together forming the inbound ingest
call), ask (the inbound answer call), and a read-only file-listing call;
apart from the file listing, every backend call issued from the UI is one
of the two core inbound calls. -/
theorem claim_C3_ui_calls :
    uiIssuedEndpoints = apiServiceEndpoints ∧
    uiIssuedEndpoints = [.uploadPdf, .vectorize, .ask, .files] ∧
    (∀ e ∈ uiIssuedEndpoints, e ∈ coreInboundEndpoints ∨ e = .files) := by
  refine ⟨rfl, rfl, by decide⟩

/-- Claim C9: `validateFile` returns `true` exactly when the file's MIME
type contains "pdf" and its size is at most `10 * 1024 * 1024` bytes, and
throws an `Error` otherwise; when validation throws, `handleFileUpload`
performs no backend call and leaves the UI state unchanged. -/
theorem claim_C9_validate_file (f : FileObj)
    (uploadOutcome vectorizeOutcome : Except String String) (st : UploadUIState) :
    (validateFile f = .ok true ↔
      ("pdf".data <:+: f.mimeType.data ∧ f.size ≤ 10 * 1024 * 1024)) ∧
    (¬("pdf".data <:+: f.mimeType.data ∧ f.size ≤ 10 * 1024 * 1024) →
      ∃ m, validateFile f = .error m) ∧
    (∀ m, validateFile f = .error m →
      handleFileUpload f uploadOutcome vectorizeOutcome st = (st, false)) := by
  refine ⟨?_, ?_, ?_⟩
  · constructor
    · intro hok
      unfold validateFile at hok
      by_cases hp : "pdf".data <:+: f.mimeType.data
      · rw [if_neg (by simp [strIncludes, hp])] at hok
        by_cases hs : f.size > 10 * 1024 * 1024
        · rw [if_pos hs] at hok
          exact absurd hok (by simp)
        · exact ⟨hp, by omega⟩
      · rw [if_pos (by simp [strIncludes, hp])] at hok
        exact absurd hok (by simp)
    · rintro ⟨hp, hs⟩
      unfold validateFile
      rw [if_neg (by simp [strIncludes, hp]), if_neg (by omega)]
  · intro hno
    unfold validateFile
    by_cases hp : "pdf".data <:+: f.mimeType.data
    · rw [if_neg (by simp [strIncludes, hp])]
      by_cases hs : f.size > 10 * 1024 * 1024
      · rw [if_pos hs]
        exact ⟨_, rfl⟩
      · exact absurd ⟨hp, by omega⟩ hno
    · rw [if_pos (by simp [strIncludes, hp])]
      exact ⟨_, rfl⟩
  · intro m hm
    unfold handleFileUpload
    rw [hm]

/-- Claim C10: when a question request is already in flight or the input
message is empty after trimming, `handleSendMessage` is a no-op — the
state is unchanged and no backend request is issued — and the send buttons
of `ChatInput` and `WelcomeScreen` are disabled in exactly these states. -/
theorem claim_C10_send_guard (uploadedFile : Option String) (reply : MsgOutcome)
    (st : ChatUIState) :
    ((st.isLoading = true ∨ st.inputMessage.trim = "") →
      handleSendMessage uploadedFile reply st = (st, false)) ∧
    (chatInputSendDisabled st = true ↔
      (st.isLoading = true ∨ st.inputMessage.trim = "")) ∧
    (welcomeSendDisabled st = true ↔
      (st.isLoading = true ∨ st.inputMessage.trim = "")) := by
  refine ⟨?_, ?_, ?_⟩
  · intro h
    unfold handleSendMessage
    rcases h with h | h
    · rw [if_pos (Or.inr h)]
    · rw [if_pos (Or.inl h)]
  · unfold chatInputSendDisabled
    simp [Bool.or_eq_true, or_comm]
  · unfold welcomeSendDisabled
    simp [Bool.or_eq_true, or_comm]

/-- A concrete three-record index used by the claim C2 witness. -/
def witnessIndex : List VecRecord :=
  [⟨"doc.pdf", 0, [1, 0], "chunk zero"⟩,
   ⟨"doc.pdf", 1, [0, 1], "chunk one"⟩,
   ⟨"doc.pdf", 2, [1, 0], "chunk two"⟩]

/-- The query vector used by the claim C2 witness. -/
def witnessVec : List ℚ := [1, 0]

/-- Witness for claim C2 at a concrete three-record index with `top_k = 2`. -/
theorem claim_C2_witness :
    (0 < normSq witnessVec ∧ ∀ r ∈ witnessIndex, 0 < normSq r.embedding) ∧
    ((query witnessIndex witnessVec 2 none).length ≤ 2 ∧
     (∀ f, (none : Option String) = some f →
        ∀ r ∈ query witnessIndex witnessVec 2 none, r.document = f) ∧
     (query witnessIndex witnessVec 2 none).Pairwise (fun a b =>
       cosSim witnessVec b.embedding ≤ cosSim witnessVec a.embedding ∧
       (cosSim witnessVec a.embedding = cosSim witnessVec b.embedding →
         a.chunkIndex ≤ b.chunkIndex))) := by
  have h1 : 0 < normSq witnessVec := by
    simp [witnessVec, normSq, dotProd]
  have h2 : ∀ r ∈ witnessIndex, 0 < normSq r.embedding := by
    intro r hr
    simp [witnessIndex] at hr
    rcases hr with rfl | rfl | rfl <;> simp [normSq, dotProd]
  exact ⟨⟨h1, h2⟩, claim_C2_query_topk_filter_order witnessIndex witnessVec 2 none h1 h2⟩

end PdfQA
